import Mathlib

/-!
Verification development for the darwin-py CLI layer
(`src/darwin/cli_functions.py`).

Strings are embedded as `List Char` so that structural facts about message
construction and reference parsing can be proved by induction.  Each CLI
operation is embedded as a pure function from an explicit environment
(client-loading outcome, remote-lookup outcome, local directory listing,
filesystem scan, interactive confirmation) to a `ProcResult`: the printed
output lines, the termination behaviour (normal return, `sys.exit`, or an
uncaught exception) and the list of remote-effect actions performed.

Collaborators of `cli_functions.py` that live outside the given sources
(`DatasetIdentifier.parse`, `Client.list_local_datasets`,
`RemoteDataset.get_release`, `RemoteDataset.push`) are modelled from the
spec; each such definition carries a doc comment saying so.
-/

namespace Darwin

/-- Strings of the embedded program, as lists of characters. -/
abbrev Str := List Char

/-- Coerce a Lean string literal to the embedded string type. -/
def str (s : String) : Str := s.data

/-- The dataset identifier data model (spec §3): team slug (optional until
populated), required dataset slug, optional version. -/
structure DatasetIdentifier where
  team_slug : Option Str
  dataset_slug : Str
  version : Option Str
deriving DecidableEq, Repr

/-- Split a character list at the first occurrence of `c`: returns the part
before that occurrence and the part after it.  When `c` does not occur the
whole list is returned as the first component. -/
def breakAt (c : Char) : Str → Str × Str
  | [] => ([], [])
  | a :: s =>
    if a = c then ([], s)
    else ((breakAt c s).1.cons a, (breakAt c s).2)

/-- The `dataset_slug [":" version]` part of the reference grammar, applied
to what remains after the optional team prefix was taken off. -/
def parseRest (team : Option Str) (rest : Str) : Option DatasetIdentifier :=
  if ':' ∈ rest then
    if (breakAt ':' rest).1 = [] then none
    else some ⟨team, (breakAt ':' rest).1, some (breakAt ':' rest).2⟩
  else
    if rest = [] then none else some ⟨team, rest, none⟩

/-- Modelled from the spec: `DatasetIdentifier.parse` is not among the given
sources (only its caller `cli_functions.py` is).  Spec §4.1: grammar is
`[team_slug "/"] dataset_slug [":" version]`; fails (returns `none`) when
`dataset_slug` is empty or the string contains more than one `/` or more
than one `:`.  Pure, no side effects. -/
def DatasetIdentifier.parse (s : Str) : Option DatasetIdentifier :=
  if 1 < s.count '/' ∨ 1 < s.count ':' then none
  else if '/' ∈ s then parseRest (some (breakAt '/' s).1) (breakAt '/' s).2
  else parseRest none s

/-- Modelled from the spec: `DatasetIdentifier.__str__` (render) is not among
the given sources.  Spec §3: canonical string form is `team/dataset:version`
with `team/` and `:version` each omitted when absent. -/
def DatasetIdentifier.render (id : DatasetIdentifier) : Str :=
  (match id.team_slug with
   | some t => t ++ ['/']
   | none => []) ++
  id.dataset_slug ++
  (match id.version with
   | some v => ':' :: v
   | none => [])

/-- A release (spec §3): name (its version), counts, export timestamp,
availability flag.  The export date is a timestamp, embedded as `Nat`. -/
structure Release where
  name : Str
  image_count : Nat
  class_count : Nat
  export_date : Nat
  available : Bool
deriving DecidableEq, Repr

/-- A remote dataset as the CLI observes it: coordinates plus its release
ledger. -/
structure RemoteDataset where
  team : Str
  slug : Str
  releases : List Release
deriving DecidableEq, Repr

/-- `RemoteDataset.identifier` renders as `team/slug`. -/
def RemoteDataset.identifier (d : RemoteDataset) : Str :=
  d.team ++ '/' :: d.slug

/-- `Release.identifier` renders as `team/slug:name`. -/
def releaseIdentifier (d : RemoteDataset) (r : Release) : Str :=
  d.identifier ++ ':' :: r.name

/-- The release with the maximum `export_date` in a list (later entries win
nothing on ties: the earlier maximal entry is kept). -/
def latestRelease : List Release → Option Release
  | [] => none
  | r :: rs =>
    match latestRelease rs with
    | none => some r
    | some b => some (if r.export_date < b.export_date then b else r)

/-- Modelled from the spec: `RemoteDataset.get_release` is not among the
given sources.  Spec §4.3 `resolve_version`: `"latest"` resolves to the
release with the maximum `export_date` among `available=true` entries; any
other value is matched exactly against release names; `available=false`
entries must never be selected for pull.  `none` is the `ReleaseNotFound`
outcome. -/
def get_release (rs : List Release) (version : Str) : Option Release :=
  let avail := rs.filter (fun r => r.available)
  if version = str "latest" then latestRelease avail
  else avail.find? (fun r => decide (r.name = version))

/-- How an embedded CLI operation terminates: a normal Python return with a
value, `sys.exit code`, or an exception that no handler catches. -/
inductive Termination (α : Type) where
  | ret (val : α)
  | exited (code : Nat)
  | raised
deriving DecidableEq, Repr

/-- One printed line: plain text, or the releases table with its rows. -/
inductive OutLine where
  | text (s : Str)
  | releaseTable (rows : List Release)
deriving DecidableEq, Repr

/-- A remote-effect (network) action performed by an operation. -/
inductive Action where
  | getRemoteDataset (slug : Str)
  | createRemoteDataset (name : Str)
  | exportRelease (team dsSlug : Str) (classIds : Option (List Nat)) (name : Option Str)
  | removeRemote (team dsSlug : Str)
  | pullRelease (team dsSlug relName : Str)
  | upload (file : Str)
deriving DecidableEq, Repr

/-- The observable outcome of running one CLI operation. -/
structure ProcResult (α : Type) where
  printed : List OutLine
  term : Termination α
  actions : List Action
deriving DecidableEq, Repr

/-- Embeds `_error` (cli_functions.py:343-345): prints the message prefixed
with `Error: ` and exits the process with status code 1. -/
def _error {α : Type} (message : Str) : ProcResult α :=
  ⟨[.text (str "Error: " ++ message)], .exited 1, []⟩

/-- Record remote-effect actions performed before reaching `r`. -/
def addAction {α : Type} (a : Action) (r : ProcResult α) : ProcResult α :=
  { r with actions := a :: r.actions }

/-- The possible outcomes of `Client.from_config` inside `_load_client`. -/
inductive ClientLoad where
  | ok
  | missingConfig
  | invalidLogin
  | unauthenticated
deriving DecidableEq, Repr

/-- Embeds `_load_client` (cli_functions.py:352-374): the message each
failure routes to `_error`, or `none` on success. -/
def loadClientError : ClientLoad → Option Str
  | .ok => none
  | .missingConfig => some (str "Authenticate first")
  | .invalidLogin => some (str "Please re-authenticate")
  | .unauthenticated => some (str "Please re-authenticate")

/-- Run the continuation `k` when the client loads, else exit through
`_error` as `_load_client` does. -/
def withClient {α : Type} (load : ClientLoad) (k : ProcResult α) : ProcResult α :=
  match loadClientError load with
  | some m => _error m
  | none => k

/-- The outcome of `client.get_remote_dataset(...)`: the dataset, a
`NotFound` exception carrying the missing name, or `Unauthenticated`. -/
inductive LookupResult where
  | found (d : RemoteDataset)
  | notFound (name : Str)
  | unauthenticated
deriving DecidableEq, Repr

/-- A dataset directory on local storage: `<datasets_dir>/<team>/<name>/`. -/
structure LocalDatasetDir where
  team : Str
  name : Str
deriving DecidableEq, Repr

/-- Modelled from the spec: `Client.list_local_datasets` is not among the
given sources.  Spec §4.2: walks exactly two directory levels below the
datasets root and yields each dataset directory, restricted to the team
filter when one is given; absence of a particular dataset is not an error
of the walk. -/
def list_local_datasets (fs : List LocalDatasetDir) (team : Option Str) : List LocalDatasetDir :=
  match team with
  | none => fs
  | some t => fs.filter (fun d => decide (d.team = t))

/-- Message of `create_dataset`'s `NameTaken` branch (cli_functions.py:107). -/
def nameTakenMsg (name : Str) : Str :=
  str "Dataset name '" ++ name ++ str "' is already taken."

/-- Message of `create_dataset`'s `ValidationError` branch (:109). -/
def nameInvalidMsg (name : Str) : Str :=
  str "Dataset name '" ++ name ++ str "' is not valid."

/-- Message of the `NotFound` branches of `remove_remote_dataset` (:260),
`dataset_list_releases` (:287) and `upload_data` (:318). -/
def noDatasetMsg (name : Str) : Str :=
  str "No dataset with name '" ++ name ++ str "'"

/-- Message of `pull_dataset`'s `NotFound` branch (:204-207). -/
def pullNotFoundMsg (dataset_slug url : Str) : Str :=
  str "dataset '" ++ dataset_slug ++ str "' does not exist at " ++ url ++
    str ". Use 'darwin remote' to list all the remote datasets."

/-- Message of `pull_dataset`'s `Unauthenticated` branch (:209). -/
def pullReauthMsg : Str := str "please re-authenticate"

/-- Message of `pull_dataset`'s release `NotFound` branch (:214-217). -/
def versionNotFoundMsg (identifier version : Str) : Str :=
  str "Version '" ++ identifier ++ ':' :: version ++
    str "' does not exist Use 'darwin dataset releases' to list all available versions."

/-- Message of `upload_data`'s `ValueError` branch (:320). -/
def noFilesMsg : Str := str "No files found"

/-- Message `dataset_list_releases` prints for an empty release list (:269). -/
def noReleasesMsg : Str := str "No available releases, export one first."

/-- Message `remove_remote_dataset` prints before asking for confirmation
(:253). -/
def aboutDeleteMsg (d : RemoteDataset) : Str :=
  str "About to delete " ++ d.identifier ++ str " on darwin."

/-- Embeds `path` (cli_functions.py:132-145): parses the reference, lists
local datasets under the parsed team filter and returns the first whose
directory name equals the parsed `dataset_slug`.  The walk itself raises
nothing for a missing dataset, so when no entry matches, control falls off
the end of the function: Python returns `None` normally. -/
def path (load : ClientLoad) (fs : List LocalDatasetDir) (dataset_slug : Str) :
    ProcResult (Option LocalDatasetDir) :=
  match DatasetIdentifier.parse dataset_slug with
  | none => ⟨[], .raised, []⟩
  | some id =>
    withClient load <|
      match (list_local_datasets fs id.team_slug).find?
          (fun d => decide (id.dataset_slug = d.name)) with
      | some d => ⟨[], .ret (some d), []⟩
      | none => ⟨[], .ret none, []⟩

/-- The outcomes of `client.create_dataset(name=...)`. -/
inductive CreateOutcome where
  | created (team slug remote_path dsName : Str)
  | nameTaken
  | validationFailed
deriving DecidableEq, Repr

/-- Embeds `create_dataset` (cli_functions.py:98-109). -/
def create_dataset (load : ClientLoad) (outcome : CreateOutcome) (name : Str) :
    ProcResult Unit :=
  withClient load <|
    addAction (.createRemoteDataset name) <|
    match outcome with
    | .created team slug remote_path dsName =>
      ⟨[.text (str "Dataset '" ++ dsName ++ str "' (" ++ team ++ '/' :: slug ++
          str ") has been created.\nAccess at " ++ remote_path)], .ret (), []⟩
    | .nameTaken => _error (nameTakenMsg name)
    | .validationFailed => _error (nameInvalidMsg name)

/-- Embeds `export_dataset` (cli_functions.py:169-188): loads the client,
parses the reference, fetches the remote dataset (no handler: a `NotFound`
or `Unauthenticated` from the lookup propagates as an uncaught exception),
triggers the export, overwrites the identifier's version with the supplied
name and prints success immediately. -/
def export_dataset (load : ClientLoad) (lookup : LookupResult) (dataset_slug : Str)
    (annotation_class_ids : Option (List Nat)) (name : Option Str) : ProcResult Unit :=
  withClient load <|
    match DatasetIdentifier.parse dataset_slug with
    | none => ⟨[], .raised, []⟩
    | some id =>
      addAction (.getRemoteDataset dataset_slug) <|
      match lookup with
      | .found ds =>
        ⟨[.text (str "Dataset " ++ dataset_slug ++ str " successfully exported to " ++
            DatasetIdentifier.render { id with version := name })],
         .ret (), [.exportRelease ds.team ds.slug annotation_class_ids name]⟩
      | .notFound _ => ⟨[], .raised, []⟩
      | .unauthenticated => ⟨[], .raised, []⟩

/-- Embeds the version defaulting of `pull_dataset` (:199):
`DatasetIdentifier.parse(dataset_slug).version or "latest"`.  Python `or`
replaces both a missing and an empty version with `"latest"`. -/
def requestedVersion (id : DatasetIdentifier) : Str :=
  match id.version with
  | none => str "latest"
  | some v => if v = [] then str "latest" else v

/-- Embeds `pull_dataset` (cli_functions.py:191-218). -/
def pull_dataset (load : ClientLoad) (lookup : LookupResult) (url local_path : Str)
    (dataset_slug : Str) : ProcResult Unit :=
  match DatasetIdentifier.parse dataset_slug with
  | none => ⟨[], .raised, []⟩
  | some id =>
    let version := requestedVersion id
    withClient load <|
      addAction (.getRemoteDataset dataset_slug) <|
      match lookup with
      | .notFound _ => _error (pullNotFoundMsg dataset_slug url)
      | .unauthenticated => _error pullReauthMsg
      | .found ds =>
        match get_release ds.releases version with
        | none => _error (versionNotFoundMsg ds.identifier version)
        | some release =>
          ⟨[.text (str "Dataset " ++ releaseIdentifier ds release ++
              str " downloaded at " ++ local_path ++ str ". ")],
           .ret (), [.pullRelease ds.team ds.slug release.name]⟩

/-- Embeds `remove_remote_dataset` (cli_functions.py:248-260): announces the
deletion, asks `secure_continue_request()` (the `confirm` argument), and
performs the remote removal only on an affirmative answer; a declined
confirmation prints `Cancelled.` and returns.  Only `NotFound` is caught. -/
def remove_remote_dataset (load : ClientLoad) (lookup : LookupResult) (confirm : Bool)
    (dataset_slug : Str) : ProcResult Unit :=
  withClient load <|
    addAction (.getRemoteDataset dataset_slug) <|
    match lookup with
    | .found ds =>
      if confirm then
        ⟨[.text (aboutDeleteMsg ds)], .ret (), [.removeRemote ds.team ds.slug]⟩
      else
        ⟨[.text (aboutDeleteMsg ds), .text (str "Cancelled.")], .ret (), []⟩
    | .notFound _ => _error (noDatasetMsg dataset_slug)
    | .unauthenticated => ⟨[], .raised, []⟩

/-- Embeds `dataset_list_releases` (cli_functions.py:263-287): on an empty
release list it prints the `No available releases` message and returns;
otherwise it builds the table, skipping rows whose release is not
`available`, and prints it. -/
def dataset_list_releases (load : ClientLoad) (lookup : LookupResult)
    (dataset_slug : Str) : ProcResult Unit :=
  withClient load <|
    addAction (.getRemoteDataset dataset_slug) <|
    match lookup with
    | .found ds =>
      if ds.releases = [] then
        ⟨[.text noReleasesMsg], .ret (), []⟩
      else
        ⟨[.releaseTable (ds.releases.filter (fun r => r.available))], .ret (), []⟩
    | .notFound _ => _error (noDatasetMsg dataset_slug)
    | .unauthenticated => ⟨[], .raised, []⟩

/-- The push failure kind of spec §4.4 step 2. -/
inductive PushError where
  | emptyFileSet
deriving DecidableEq, Repr

/-- Modelled from the spec: the candidate-set step of `RemoteDataset.push`
(not among the given sources).  Spec §4.4 step 1 and §3 TransferRequest:
the explicit list when given (the scan and the exclusions are then skipped
entirely), else the filesystem scan minus `files_to_exclude`. -/
def candidateFiles (files_to_upload : Option (List Str)) (scan : List Str)
    (files_to_exclude : Option (List Str)) : List Str :=
  match files_to_upload with
  | some fs => fs
  | none => scan.filter (fun f => decide (f ∉ files_to_exclude.getD []))

/-- Modelled from the spec: `RemoteDataset.push` is not among the given
sources.  Spec §4.4 steps 1-2: an empty candidate set fails with
`EmptyFileSet` before any network call — the failure carries no upload
actions; a nonempty set schedules one upload action per candidate. -/
def push (files_to_upload : Option (List Str)) (scan : List Str)
    (files_to_exclude : Option (List Str)) : Except PushError (List Action) :=
  let cands := candidateFiles files_to_upload scan files_to_exclude
  if cands = [] then .error .emptyFileSet
  else .ok (cands.map .upload)

/-- Embeds `upload_data` (cli_functions.py:290-320): fetches the remote
dataset and pushes; the `ValueError` handler turns push's empty-set failure
into `_error "No files found"`; only `NotFound` and `ValueError` are
caught. -/
def upload_data (load : ClientLoad) (lookup : LookupResult) (scan : List Str)
    (dataset_slug : Str) (files : Option (List Str))
    (files_to_exclude : Option (List Str)) : ProcResult Unit :=
  withClient load <|
    addAction (.getRemoteDataset dataset_slug) <|
    match lookup with
    | .notFound n => _error (noDatasetMsg n)
    | .unauthenticated => ⟨[], .raised, []⟩
    | .found _ =>
      match push files scan files_to_exclude with
      | .error .emptyFileSet => _error noFilesMsg
      | .ok acts => ⟨[], .ret (), acts⟩

/-- `needle` occurs as a contiguous substring of `hay`. -/
def occurs (needle hay : Str) : Bool :=
  hay.tails.any (fun t => needle.isPrefixOf t)

/-- The structural invariant of identifiers produced by `parse`: slugs carry
no separator that rendering would re-introduce ambiguously. -/
structure ValidId (id : DatasetIdentifier) : Prop where
  ds_ne : id.dataset_slug ≠ []
  ds_slash : '/' ∉ id.dataset_slug
  ds_colon : ':' ∉ id.dataset_slug
  team_slash : ∀ t, id.team_slug = some t → '/' ∉ t
  team_colon_le : ∀ t, id.team_slug = some t → t.count ':' ≤ 1
  team_colon : ∀ t v, id.team_slug = some t → id.version = some v → ':' ∉ t
  ver_slash : ∀ v, id.version = some v → '/' ∉ v
  ver_colon : ∀ v, id.version = some v → ':' ∉ v

lemma breakAt_not_mem {c : Char} {s : Str} (h : c ∉ s) : breakAt c s = (s, []) := by
  induction s with
  | nil => rfl
  | cons a as ih =>
    simp only [List.mem_cons, not_or] at h
    simp [breakAt, Ne.symm h.1, ih h.2]

lemma breakAt_append_cons {c : Char} {l₁ l₂ : Str} (h : c ∉ l₁) :
    breakAt c (l₁ ++ c :: l₂) = (l₁, l₂) := by
  induction l₁ with
  | nil => simp [breakAt]
  | cons a as ih =>
    simp only [List.mem_cons, not_or] at h
    simp [breakAt, Ne.symm h.1, ih h.2]

/-- When `c ∈ s`, `breakAt` decomposes `s` around the first occurrence. -/
lemma breakAt_mem {c : Char} {s : Str} (h : c ∈ s) :
    s = (breakAt c s).1 ++ c :: (breakAt c s).2 ∧ c ∉ (breakAt c s).1 := by
  induction s with
  | nil => cases h
  | cons a as ih =>
    by_cases hac : a = c
    · subst hac
      simp [breakAt]
    · have h' : c ∈ as := by
        rcases List.mem_cons.mp h with h0 | h0
        · exact absurd h0.symm hac
        · exact h0
      obtain ⟨h1, h2⟩ := ih h'
      refine ⟨?_, ?_⟩
      · simp only [breakAt, if_neg hac]
        exact congrArg (a :: ·) h1
      · simp only [breakAt, if_neg hac]
        simp only [List.cons, List.mem_cons, not_or]
        exact ⟨fun e => hac e.symm, h2⟩

lemma count_eq_zero_iff {c : Char} {l : Str} : l.count c = 0 ↔ c ∉ l :=
  List.count_eq_zero

/-- Characterization of a successful `parseRest`. -/
lemma parseRest_some {team : Option Str} {rest : Str} {id : DatasetIdentifier}
    (h : parseRest team rest = some id) :
    id.team_slug = team ∧ id.dataset_slug ≠ [] ∧ ':' ∉ id.dataset_slug ∧
      ((id.version = none ∧ id.dataset_slug = rest) ∨
       (∃ v, id.version = some v ∧ rest = id.dataset_slug ++ ':' :: v)) := by
  unfold parseRest at h
  by_cases hm : ':' ∈ rest
  · rw [if_pos hm] at h
    by_cases he : (breakAt ':' rest).1 = []
    · rw [if_pos he] at h
      cases h
    · rw [if_neg he] at h
      obtain ⟨hdec, hnm⟩ := breakAt_mem hm
      cases h
      exact ⟨rfl, he, hnm, Or.inr ⟨_, rfl, hdec⟩⟩
  · rw [if_neg hm] at h
    by_cases he : rest = []
    · rw [if_pos he] at h
      cases h
    · rw [if_neg he] at h
      cases h
      exact ⟨rfl, he, hm, Or.inl ⟨rfl, rfl⟩⟩

/-- Every identifier `parse` produces satisfies the structural invariant. -/
theorem parse_valid {s : Str} {id : DatasetIdentifier}
    (h : DatasetIdentifier.parse s = some id) : ValidId id := by
  unfold DatasetIdentifier.parse at h
  by_cases hcnt : 1 < s.count '/' ∨ 1 < s.count ':'
  · rw [if_pos hcnt] at h
    cases h
  · rw [if_neg hcnt] at h
    push_neg at hcnt
    obtain ⟨hs1, hc1⟩ := hcnt
    by_cases hsl : '/' ∈ s
    · rw [if_pos hsl] at h
      obtain ⟨hdec, hpre⟩ := breakAt_mem hsl
      obtain ⟨hteam, hne, hdscol, hver⟩ := parseRest_some h
      have hcount_sl : (breakAt '/' s).1.count '/' + ((breakAt '/' s).2.count '/' + 1)
          = s.count '/' := by
        conv_rhs => rw [hdec]
        rw [List.count_append, List.count_cons_self]
      have hpost_sl : '/' ∉ (breakAt '/' s).2 := by
        rw [← count_eq_zero_iff]
        omega
      have hcount_col : (breakAt '/' s).1.count ':' + (breakAt '/' s).2.count ':'
          = s.count ':' := by
        conv_rhs => rw [hdec]
        rw [List.count_append, List.count_cons_of_ne (by decide)]
      have hds_sl : '/' ∉ id.dataset_slug := by
        rcases hver with ⟨_, hds⟩ | ⟨v, _, hds⟩
        · rw [hds]
          exact hpost_sl
        · intro hx
          exact hpost_sl (hds ▸ List.mem_append.mpr (Or.inl hx))
      refine ⟨hne, hds_sl, hdscol, ?_, ?_, ?_, ?_, ?_⟩
      · intro t ht
        rw [hteam] at ht
        cases ht
        exact hpre
      · intro t ht
        rw [hteam] at ht
        cases ht
        omega
      · intro t v ht hv
        rw [hteam] at ht
        cases ht
        rcases hver with ⟨hnone, _⟩ | ⟨v', hsome, hds⟩
        · rw [hv] at hnone
          cases hnone
        · have hcolpost : 0 < (breakAt '/' s).2.count ':' := by
            rw [hds, List.count_append, List.count_cons_self]
            omega
          rw [← count_eq_zero_iff]
          omega
      · intro v hv
        rcases hver with ⟨hnone, _⟩ | ⟨v', hsome, hds⟩
        · rw [hv] at hnone
          cases hnone
        · rw [hv] at hsome
          cases hsome
          intro hx
          exact hpost_sl (hds ▸ List.mem_append.mpr (Or.inr (List.mem_cons_of_mem _ hx)))
      · intro v hv
        rcases hver with ⟨hnone, _⟩ | ⟨v', hsome, hds⟩
        · rw [hv] at hnone
          cases hnone
        · rw [hv] at hsome
          cases hsome
          have : id.dataset_slug.count ':' + (v.count ':' + 1)
              = (breakAt '/' s).2.count ':' := by
            rw [hds, List.count_append, List.count_cons_self]
          rw [← count_eq_zero_iff]
          omega
    · rw [if_neg hsl] at h
      obtain ⟨hteam, hne, hdscol, hver⟩ := parseRest_some h
      have hds_sub : ∀ x ∈ id.dataset_slug, x ∈ s := by
        rcases hver with ⟨_, hds⟩ | ⟨v, _, hds⟩
        · rw [hds]
          exact fun x hx => hx
        · intro x hx
          exact hds ▸ List.mem_append.mpr (Or.inl hx)
      refine ⟨hne, fun hx => hsl (hds_sub _ hx), hdscol, ?_, ?_, ?_, ?_, ?_⟩
      · intro t ht
        rw [hteam] at ht
        cases ht
      · intro t ht
        rw [hteam] at ht
        cases ht
      · intro t v ht _
        rw [hteam] at ht
        cases ht
      · intro v hv
        rcases hver with ⟨hnone, _⟩ | ⟨v', hsome, hds⟩
        · rw [hv] at hnone
          cases hnone
        · rw [hv] at hsome
          cases hsome
          intro hx
          exact hsl (hds ▸ List.mem_append.mpr (Or.inr (List.mem_cons_of_mem _ hx)))
      · intro v hv
        rcases hver with ⟨hnone, _⟩ | ⟨v', hsome, hds⟩
        · rw [hv] at hnone
          cases hnone
        · rw [hv] at hsome
          cases hsome
          have : id.dataset_slug.count ':' + (v.count ':' + 1) = s.count ':' := by
            rw [hds, List.count_append, List.count_cons_self]
          rw [← count_eq_zero_iff]
          omega

/-- Rendering a structurally valid identifier and parsing it back yields the
identifier unchanged. -/
theorem render_parse {id : DatasetIdentifier} (hv : ValidId id) :
    DatasetIdentifier.parse (DatasetIdentifier.render id) = some id := by
  obtain ⟨team, ds, ver⟩ := id
  have hdsne : ds ≠ [] := hv.ds_ne
  have hdssl : '/' ∉ ds := hv.ds_slash
  have hdsco : ':' ∉ ds := hv.ds_colon
  cases team with
  | some t =>
    have htsl : '/' ∉ t := hv.team_slash t rfl
    have htle : t.count ':' ≤ 1 := hv.team_colon_le t rfl
    cases ver with
    | some v =>
      have htco : ':' ∉ t := hv.team_colon t v rfl rfl
      have hvsl : '/' ∉ v := hv.ver_slash v rfl
      have hvco : ':' ∉ v := hv.ver_colon v rfl
      have hr : DatasetIdentifier.render ⟨some t, ds, some v⟩
          = t ++ '/' :: (ds ++ ':' :: v) := by
        simp [DatasetIdentifier.render, List.append_assoc]
      rw [hr]
      have hcsl : (t ++ '/' :: (ds ++ ':' :: v)).count '/' = 1 := by
        rw [List.count_append, List.count_cons_self, List.count_append,
          List.count_cons_of_ne (by decide), count_eq_zero_iff.2 htsl,
          count_eq_zero_iff.2 hdssl, count_eq_zero_iff.2 hvsl]
      have hcco : (t ++ '/' :: (ds ++ ':' :: v)).count ':' = 1 := by
        rw [List.count_append, List.count_cons_of_ne (by decide), List.count_append,
          List.count_cons_self, count_eq_zero_iff.2 htco,
          count_eq_zero_iff.2 hdsco, count_eq_zero_iff.2 hvco]
      have hmem : '/' ∈ t ++ '/' :: (ds ++ ':' :: v) :=
        List.mem_append.mpr (Or.inr (List.mem_cons_self _ _))
      unfold DatasetIdentifier.parse
      rw [if_neg (by rw [hcsl, hcco]; decide), if_pos hmem, breakAt_append_cons htsl]
      unfold parseRest
      rw [if_pos (List.mem_append.mpr (Or.inr (List.mem_cons_self _ _))),
        breakAt_append_cons hdsco]
      rw [if_neg hdsne]
    | none =>
      have hr : DatasetIdentifier.render ⟨some t, ds, none⟩ = t ++ '/' :: ds := by
        simp [DatasetIdentifier.render, List.append_assoc]
      rw [hr]
      have hcsl : (t ++ '/' :: ds).count '/' = 1 := by
        rw [List.count_append, List.count_cons_self,
          count_eq_zero_iff.2 htsl, count_eq_zero_iff.2 hdssl]
      have hcco : (t ++ '/' :: ds).count ':' ≤ 1 := by
        rw [List.count_append, List.count_cons_of_ne (by decide),
          count_eq_zero_iff.2 hdsco]
        omega
      have hmem : '/' ∈ t ++ '/' :: ds :=
        List.mem_append.mpr (Or.inr (List.mem_cons_self _ _))
      unfold DatasetIdentifier.parse
      rw [if_neg (by rw [hcsl]; exact fun hor => hor.elim (by omega) (by omega)),
        if_pos hmem, breakAt_append_cons htsl]
      unfold parseRest
      rw [if_neg hdsco, if_neg hdsne]
  | none =>
    cases ver with
    | some v =>
      have hvsl : '/' ∉ v := hv.ver_slash v rfl
      have hvco : ':' ∉ v := hv.ver_colon v rfl
      have hr : DatasetIdentifier.render ⟨none, ds, some v⟩ = ds ++ ':' :: v := by
        simp [DatasetIdentifier.render]
      rw [hr]
      have hcsl : (ds ++ ':' :: v).count '/' = 0 := by
        rw [List.count_append, List.count_cons_of_ne (by decide),
          count_eq_zero_iff.2 hdssl, count_eq_zero_iff.2 hvsl]
      have hcco : (ds ++ ':' :: v).count ':' = 1 := by
        rw [List.count_append, List.count_cons_self,
          count_eq_zero_iff.2 hdsco, count_eq_zero_iff.2 hvco]
      have hnsl : '/' ∉ ds ++ ':' :: v := by
        rw [← count_eq_zero_iff]
        exact hcsl
      unfold DatasetIdentifier.parse
      rw [if_neg (by rw [hcsl, hcco]; decide), if_neg hnsl]
      unfold parseRest
      rw [if_pos (List.mem_append.mpr (Or.inr (List.mem_cons_self _ _))),
        breakAt_append_cons hdsco]
      rw [if_neg hdsne]
    | none =>
      have hr : DatasetIdentifier.render ⟨none, ds, none⟩ = ds := by
        simp [DatasetIdentifier.render]
      rw [hr]
      unfold DatasetIdentifier.parse
      rw [if_neg (by
          rw [count_eq_zero_iff.2 hdssl, count_eq_zero_iff.2 hdsco]
          decide),
        if_neg hdssl]
      unfold parseRest
      rw [if_neg hdsco, if_neg hdsne]

lemma latestRelease_eq_none {rs : List Release} (h : latestRelease rs = none) :
    rs = [] := by
  cases rs with
  | nil => rfl
  | cons a as =>
    unfold latestRelease at h
    cases hm : latestRelease as <;> rw [hm] at h <;> cases h

lemma latestRelease_mem : ∀ {rs : List Release} {r : Release},
    latestRelease rs = some r → r ∈ rs := by
  intro rs
  induction rs with
  | nil =>
    intro r h
    cases h
  | cons a as ih =>
    intro r h
    unfold latestRelease at h
    cases hm : latestRelease as with
    | none =>
      rw [hm] at h
      injection h with h'
      subst h'
      exact List.mem_cons_self _ _
    | some b =>
      rw [hm] at h
      injection h with h'
      subst h'
      by_cases hlt : a.export_date < b.export_date
      · rw [if_pos hlt]
        exact List.mem_cons_of_mem _ (ih hm)
      · rw [if_neg hlt]
        exact List.mem_cons_self _ _

lemma latestRelease_max : ∀ {rs : List Release} {r : Release},
    latestRelease rs = some r → ∀ x ∈ rs, x.export_date ≤ r.export_date := by
  intro rs
  induction rs with
  | nil =>
    intro r h
    cases h
  | cons a as ih =>
    intro r h x hx
    unfold latestRelease at h
    cases hm : latestRelease as with
    | none =>
      rw [hm] at h
      injection h with h'
      subst h'
      rw [latestRelease_eq_none hm] at hx
      rcases List.mem_cons.mp hx with h0 | h0
      · rw [h0]
      · cases h0
    | some b =>
      rw [hm] at h
      injection h with h'
      subst h'
      rcases List.mem_cons.mp hx with h0 | h0
      · subst h0
        by_cases hlt : x.export_date < b.export_date
        · rw [if_pos hlt]
          omega
        · rw [if_neg hlt]
      · have hxb := ih hm x h0
        by_cases hlt : a.export_date < b.export_date
        · rw [if_pos hlt]
          exact hxb
        · rw [if_neg hlt]
          omega

/-- Whatever `get_release` returns is an `available=true` release. -/
lemma get_release_available {rs : List Release} {v : Str} {r : Release}
    (h : get_release rs v = some r) : r.available = true := by
  unfold get_release at h
  by_cases hv : v = str "latest"
  · rw [if_pos hv] at h
    exact (List.mem_filter.mp (latestRelease_mem h)).2
  · rw [if_neg hv] at h
    exact (List.mem_filter.mp (List.mem_of_find?_eq_some h)).2

/-- Whatever `get_release` returns belongs to the release list. -/
lemma get_release_mem {rs : List Release} {v : Str} {r : Release}
    (h : get_release rs v = some r) : r ∈ rs := by
  unfold get_release at h
  by_cases hv : v = str "latest"
  · rw [if_pos hv] at h
    exact (List.mem_filter.mp (latestRelease_mem h)).1
  · rw [if_neg hv] at h
    exact (List.mem_filter.mp (List.mem_of_find?_eq_some h)).1

/-- `"latest"` resolves to a maximal `export_date` among available entries. -/
lemma get_release_latest_max {rs : List Release} {r : Release}
    (h : get_release rs (str "latest") = some r) :
    ∀ x ∈ rs, x.available = true → x.export_date ≤ r.export_date := by
  unfold get_release at h
  rw [if_pos rfl] at h
  intro x hx hav
  exact latestRelease_max h x (List.mem_filter.mpr ⟨hx, hav⟩)

/-- A non-`"latest"` version is matched exactly against release names. -/
lemma get_release_exact {rs : List Release} {v : Str} {r : Release}
    (hv : v ≠ str "latest") (h : get_release rs v = some r) : r.name = v := by
  unfold get_release at h
  rw [if_neg hv] at h
  have hp := List.find?_some h
  simp only [decide_eq_true_eq] at hp
  exact hp

lemma isPrefixOf_append (n rest : Str) : n.isPrefixOf (n ++ rest) = true := by
  induction n with
  | nil => simp [List.isPrefixOf]
  | cons a as ih => simp [List.isPrefixOf, ih]

lemma occurs_of_isPrefixOf {n l : Str} (h : n.isPrefixOf l = true) :
    occurs n l = true := by
  unfold occurs
  cases l with
  | nil => simpa [List.tails] using h
  | cons a as =>
    rw [List.tails_cons]
    simp only [List.any_cons, h, Bool.true_or]

lemma occurs_cons {n : Str} (a : Char) {l : Str} (h : occurs n l = true) :
    occurs n (a :: l) = true := by
  unfold occurs at h ⊢
  rw [List.tails_cons]
  simp only [List.any_cons, h, Bool.or_true]

lemma occurs_append_left (pre : Str) {n l : Str} (h : occurs n l = true) :
    occurs n (pre ++ l) = true := by
  induction pre with
  | nil => exact h
  | cons a as ih => exact occurs_cons a ih

/-- A string occurs in any message built around it. -/
lemma occurs_infix (pre n suf : Str) : occurs n (pre ++ (n ++ suf)) = true :=
  occurs_append_left pre (occurs_of_isPrefixOf (isPrefixOf_append n suf))

/-- C7: for every identifier `id` produced by `parse`, rendering it back to a
string and parsing that string yields an identifier equal to `id`:
`parse (render id) = some id`. -/
theorem claim_C7_parse_render_roundtrip {s : Str} {id : DatasetIdentifier}
    (h : DatasetIdentifier.parse s = some id) :
    DatasetIdentifier.parse (DatasetIdentifier.render id) = some id :=
  render_parse (parse_valid h)

/-- C7 witness: the round trip at the concrete reference `team/dataset:v1`. -/
theorem claim_C7_witness :
    DatasetIdentifier.parse (str "team/dataset:v1")
      = some ⟨some (str "team"), str "dataset", some (str "v1")⟩ ∧
    DatasetIdentifier.parse
        (DatasetIdentifier.render ⟨some (str "team"), str "dataset", some (str "v1")⟩)
      = some ⟨some (str "team"), str "dataset", some (str "v1")⟩ :=
  ⟨by decide,
    @claim_C7_parse_render_roundtrip (str "team/dataset:v1")
      ⟨some (str "team"), str "dataset", some (str "v1")⟩ (by decide)⟩

/-- C1 (code bug): at the failing input — the local store holds only
`team-a/ds1` and the reference is `team-a/other` — the `path` operation
returns a normal `None` (no message, no error exit) instead of failing with
`DatasetNotFoundLocally` carrying the identifier. -/
theorem claim_C1_path_returns_none_silently :
    path .ok [⟨str "team-a", str "ds1"⟩] (str "team-a/other")
      = ⟨[], .ret none, []⟩ := by
  decide

/-- C2 counterexample: pulling `myteam/mydata` while unauthenticated surfaces
the error `please re-authenticate`, which names neither the dataset nor the
team that caused the failure — the claim that every surfaced error includes
the identifying context is false. -/
theorem claim_C2_counterexample :
    (pull_dataset .ok .unauthenticated (str "https://darwin.v7labs.com/api")
        (str "/data") (str "myteam/mydata")).printed
      = [.text (str "Error: please re-authenticate")] ∧
    (pull_dataset .ok .unauthenticated (str "https://darwin.v7labs.com/api")
        (str "/data") (str "myteam/mydata")).term = .exited 1 ∧
    occurs (str "mydata") (str "Error: please re-authenticate") = false ∧
    occurs (str "myteam") (str "Error: please re-authenticate") = false := by
  decide

/-- C2 (amended): errors about a named dataset, team or version — remote
dataset not found, name taken, name invalid, pull target not found, version
not found — embed the identifying name in the surfaced message; the
authentication/configuration errors and the empty-file-set error are fixed
generic messages that carry no such context. -/
theorem claim_C2_amended_context_in_named_errors :
    (∀ name : Str, occurs name (noDatasetMsg name) = true) ∧
    (∀ name : Str, occurs name (nameTakenMsg name) = true) ∧
    (∀ name : Str, occurs name (nameInvalidMsg name) = true) ∧
    (∀ slug url : Str, occurs slug (pullNotFoundMsg slug url) = true) ∧
    (∀ identifier version : Str,
      occurs identifier (versionNotFoundMsg identifier version) = true) ∧
    (∀ identifier version : Str,
      occurs version (versionNotFoundMsg identifier version) = true) ∧
    loadClientError .missingConfig = some (str "Authenticate first") ∧
    loadClientError .invalidLogin = some (str "Please re-authenticate") ∧
    loadClientError .unauthenticated = some (str "Please re-authenticate") ∧
    pullReauthMsg = str "please re-authenticate" ∧
    noFilesMsg = str "No files found" := by
  refine ⟨?_, ?_, ?_, ?_, ?_, ?_, rfl, rfl, rfl, rfl, rfl⟩
  · intro name
    simp only [noDatasetMsg, List.append_assoc]
    exact occurs_infix _ _ _
  · intro name
    simp only [nameTakenMsg, List.append_assoc]
    exact occurs_infix _ _ _
  · intro name
    simp only [nameInvalidMsg, List.append_assoc]
    exact occurs_infix _ _ _
  · intro slug url
    simp only [pullNotFoundMsg, List.append_assoc]
    exact occurs_infix _ _ _
  · intro identifier version
    simp only [versionNotFoundMsg, List.append_assoc]
    exact occurs_infix _ _ _
  · intro identifier version
    simp only [versionNotFoundMsg, List.append_assoc]
    exact occurs_append_left _ (occurs_append_left _
      (occurs_cons ':' (occurs_of_isPrefixOf (isPrefixOf_append version _))))

/-- C3: a push whose candidate file set is empty — in particular no explicit
file list and an empty filesystem scan — fails with `EmptyFileSet` before
any network call (the failure carries no upload actions), and the CLI
surfaces it as an error exit without performing any upload. -/
theorem claim_C3_empty_file_set_aborts :
    (∀ (files : Option (List Str)) (scan : List Str) (excl : Option (List Str)),
      candidateFiles files scan excl = [] → push files scan excl = .error .emptyFileSet) ∧
    (∀ excl : Option (List Str), push none [] excl = .error .emptyFileSet) ∧
    (∀ (ds : RemoteDataset) (slug : Str) (excl : Option (List Str)),
      upload_data .ok (.found ds) [] slug none excl
        = ⟨[.text (str "Error: " ++ noFilesMsg)], .exited 1, [.getRemoteDataset slug]⟩) ∧
    (∀ (ds : RemoteDataset) (slug : Str) (excl : Option (List Str)) (f : Str),
      Action.upload f ∉ (upload_data .ok (.found ds) [] slug none excl).actions) := by
  refine ⟨?_, ?_, ?_, ?_⟩
  · intro files scan excl h
    simp [push, h]
  · intro excl
    simp [push, candidateFiles]
  · intro ds slug excl
    simp [upload_data, withClient, loadClientError, addAction, push, candidateFiles,
      _error, noFilesMsg]
  · intro ds slug excl f
    simp [upload_data, withClient, loadClientError, addAction, push, candidateFiles,
      _error]

/-- C3 witness: the abort at a concrete empty candidate set. -/
theorem claim_C3_witness :
    candidateFiles none [] none = [] ∧ push none [] none = .error .emptyFileSet :=
  ⟨by decide, claim_C3_empty_file_set_aborts.1 none [] none (by decide)⟩

/-- C4: `available=false` releases never appear as rows of the release
listing's table and are never the release `get_release` selects for pull. -/
theorem claim_C4_unavailable_never_listed_or_pulled :
    (∀ (load : ClientLoad) (lookup : LookupResult) (slug : Str) (rows : List Release),
      OutLine.releaseTable rows ∈ (dataset_list_releases load lookup slug).printed →
      ∀ r ∈ rows, r.available = true) ∧
    (∀ (rs : List Release) (v : Str) (r : Release),
      get_release rs v = some r → r.available = true) := by
  constructor
  · intro load lookup slug rows hmem r hr
    cases load <;>
      simp only [dataset_list_releases, withClient, loadClientError, addAction,
        _error] at hmem
    case ok =>
      cases lookup with
      | found ds =>
        by_cases he : ds.releases = []
        · simp [he] at hmem
        · simp [he] at hmem
          subst hmem
          exact (List.mem_filter.mp hr).2
      | notFound n => simp at hmem
      | unauthenticated => simp at hmem
    all_goals simp at hmem
  · intro rs v r h
    exact get_release_available h

/-- C4 witness: with one available and one pending release, the listed row is
the available one and `get_release "latest"` selects an available one. -/
theorem claim_C4_witness :
    (⟨str "v1", 10, 2, 100, true⟩ : Release).available = true ∧
    (⟨str "v3", 7, 2, 50, true⟩ : Release).available = true :=
  ⟨claim_C4_unavailable_never_listed_or_pulled.1 .ok
      (.found ⟨str "t", str "d",
        [⟨str "v1", 10, 2, 100, true⟩, ⟨str "v2", 11, 2, 200, false⟩]⟩)
      (str "d") [⟨str "v1", 10, 2, 100, true⟩] (by decide)
      ⟨str "v1", 10, 2, 100, true⟩ (by decide),
   claim_C4_unavailable_never_listed_or_pulled.2
      [⟨str "v2", 11, 2, 200, false⟩, ⟨str "v3", 7, 2, 50, true⟩] (str "latest")
      ⟨str "v3", 7, 2, 50, true⟩ (by decide)⟩

/-- C5: a reference parsed without a version pulls version `latest`;
`latest` resolves to the maximum-`export_date` release among the available
ones; any other version string is matched exactly against release names;
and when no match exists `pull_dataset` fails with the version-not-found
error carrying the dataset identifier and the requested version. -/
theorem claim_C5_version_resolution :
    (∀ id : DatasetIdentifier, id.version = none → requestedVersion id = str "latest") ∧
    (∀ (rs : List Release) (r : Release), get_release rs (str "latest") = some r →
      r ∈ rs ∧ r.available = true ∧
        ∀ x ∈ rs, x.available = true → x.export_date ≤ r.export_date) ∧
    (∀ (rs : List Release) (v : Str) (r : Release),
      v ≠ str "latest" → get_release rs v = some r → r.name = v) ∧
    (∀ (ds : RemoteDataset) (url lp slug : Str) (id : DatasetIdentifier),
      DatasetIdentifier.parse slug = some id →
      get_release ds.releases (requestedVersion id) = none →
      pull_dataset .ok (.found ds) url lp slug
        = ⟨[.text (str "Error: " ++
              versionNotFoundMsg ds.identifier (requestedVersion id))],
           .exited 1, [.getRemoteDataset slug]⟩) := by
  refine ⟨?_, ?_, ?_, ?_⟩
  · intro id h
    simp [requestedVersion, h]
  · intro rs r h
    exact ⟨get_release_mem h, get_release_available h, get_release_latest_max h⟩
  · intro rs v r hv h
    exact get_release_exact hv h
  · intro ds url lp slug id hparse hrel
    simp [pull_dataset, hparse, withClient, loadClientError, addAction, hrel, _error]

/-- C5 witness: over releases `v1@100 available`, `v2@200 pending`,
`v3@50 available`, `latest` selects `v1`; an exact version matches by name;
a versionless identifier requests `latest`. -/
theorem claim_C5_witness :
    requestedVersion ⟨none, str "d", none⟩ = str "latest" ∧
    ((⟨str "v1", 10, 2, 100, true⟩ : Release)
        ∈ [⟨str "v1", 10, 2, 100, true⟩, ⟨str "v2", 11, 2, 200, false⟩,
           ⟨str "v3", 7, 2, 50, true⟩] ∧
      (⟨str "v1", 10, 2, 100, true⟩ : Release).available = true ∧
      ∀ x ∈ [⟨str "v1", 10, 2, 100, true⟩, ⟨str "v2", 11, 2, 200, false⟩,
             (⟨str "v3", 7, 2, 50, true⟩ : Release)],
        x.available = true → x.export_date ≤ (⟨str "v1", 10, 2, 100, true⟩ : Release).export_date) ∧
    (⟨str "v3", 7, 2, 50, true⟩ : Release).name = str "v3" :=
  ⟨claim_C5_version_resolution.1 ⟨none, str "d", none⟩ rfl,
   claim_C5_version_resolution.2.1
     [⟨str "v1", 10, 2, 100, true⟩, ⟨str "v2", 11, 2, 200, false⟩,
      ⟨str "v3", 7, 2, 50, true⟩] ⟨str "v1", 10, 2, 100, true⟩ (by decide),
   claim_C5_version_resolution.2.2.1
     [⟨str "v3", 7, 2, 50, true⟩] (str "v3") ⟨str "v3", 7, 2, 50, true⟩
     (by decide) (by decide)⟩

/-- C6: `export_dataset` triggers the server-side export and reports success
immediately: its outcome is a normal return whose message renders the
identifier with its version overwritten by the supplied release name, its
only remote actions are the dataset lookup and the export trigger (no
release read, no poll, no wait), and the outcome is independent of the
dataset's release ledger — availability can only be observed by polling
afterwards. -/
theorem claim_C6_export_fire_and_forget :
    ∀ (ds : RemoteDataset) (rs' : List Release) (slug : Str) (id : DatasetIdentifier)
      (acls : Option (List Nat)) (name : Option Str),
      DatasetIdentifier.parse slug = some id →
      export_dataset .ok (.found ds) slug acls name
          = ⟨[.text (str "Dataset " ++ slug ++ str " successfully exported to " ++
                DatasetIdentifier.render { id with version := name })],
             .ret (), [.getRemoteDataset slug, .exportRelease ds.team ds.slug acls name]⟩ ∧
      export_dataset .ok (.found { ds with releases := rs' }) slug acls name
          = export_dataset .ok (.found ds) slug acls name := by
  intro ds rs' slug id acls name h
  constructor
  · simp [export_dataset, withClient, loadClientError, addAction, h]
  · simp [export_dataset, withClient, loadClientError, addAction, h]

/-- C6 witness: exporting `d` as release `r1` at a concrete dataset. -/
theorem claim_C6_witness :
    export_dataset .ok (.found ⟨str "t", str "d", []⟩) (str "d") none (some (str "r1"))
        = ⟨[.text (str "Dataset " ++ str "d" ++ str " successfully exported to " ++
              DatasetIdentifier.render ⟨none, str "d", some (str "r1")⟩)],
           .ret (), [.getRemoteDataset (str "d"),
             .exportRelease (str "t") (str "d") none (some (str "r1"))]⟩ ∧
    export_dataset .ok
        (.found ⟨str "t", str "d", [⟨str "r0", 1, 1, 7, false⟩]⟩)
        (str "d") none (some (str "r1"))
      = export_dataset .ok (.found ⟨str "t", str "d", []⟩) (str "d") none
          (some (str "r1")) :=
  claim_C6_export_fire_and_forget ⟨str "t", str "d", []⟩ [⟨str "r0", 1, 1, 7, false⟩]
    (str "d") ⟨none, str "d", none⟩ none (some (str "r1")) (by decide)

/-- C8 counterexample: `export_dataset` has no `NotFound` handler, so a
dataset-not-found failure there propagates as an uncaught exception instead
of terminating through `_error` with exit status 1 — the claim that every
failure branch of every CLI operation terminates through `_error` is
false. -/
theorem claim_C8_counterexample :
    export_dataset .ok (.notFound (str "some-dataset")) (str "some-dataset") none none
      = ⟨[], .raised, [.getRemoteDataset (str "some-dataset")]⟩ := by
  decide

/-- C8 (amended): every failure branch the CLI catches — missing
configuration and invalid login in `_load_client`, name taken and
validation error in `create_dataset`, dataset or release not found and
unauthenticated in `pull_dataset`, dataset not found in
`remove_remote_dataset`, `dataset_list_releases` and `upload_data`, and the
empty file set in `upload_data` — terminates through `_error`, which prints
the message prefixed with `Error: ` and exits with status 1, returning no
normal value; `export_dataset`, however, catches nothing, so a missing
dataset there raises instead of exiting through `_error`. -/
theorem claim_C8_amended_handled_branches_exit_via_error :
    (∀ m : Str, (_error m : ProcResult Unit)
        = ⟨[.text (str "Error: " ++ m)], .exited 1, []⟩) ∧
    (∀ (load : ClientLoad) (m : Str) (k : ProcResult Unit),
      loadClientError load = some m → withClient load k = _error m) ∧
    (∀ name : Str, create_dataset .ok .nameTaken name
        = ⟨[.text (str "Error: " ++ nameTakenMsg name)], .exited 1,
           [.createRemoteDataset name]⟩) ∧
    (∀ name : Str, create_dataset .ok .validationFailed name
        = ⟨[.text (str "Error: " ++ nameInvalidMsg name)], .exited 1,
           [.createRemoteDataset name]⟩) ∧
    (∀ (n url lp slug : Str) (id : DatasetIdentifier),
      DatasetIdentifier.parse slug = some id →
      pull_dataset .ok (.notFound n) url lp slug
        = ⟨[.text (str "Error: " ++ pullNotFoundMsg slug url)], .exited 1,
           [.getRemoteDataset slug]⟩) ∧
    (∀ (url lp slug : Str) (id : DatasetIdentifier),
      DatasetIdentifier.parse slug = some id →
      pull_dataset .ok .unauthenticated url lp slug
        = ⟨[.text (str "Error: " ++ pullReauthMsg)], .exited 1,
           [.getRemoteDataset slug]⟩) ∧
    (∀ (ds : RemoteDataset) (url lp slug : Str) (id : DatasetIdentifier),
      DatasetIdentifier.parse slug = some id →
      get_release ds.releases (requestedVersion id) = none →
      pull_dataset .ok (.found ds) url lp slug
        = ⟨[.text (str "Error: " ++
              versionNotFoundMsg ds.identifier (requestedVersion id))],
           .exited 1, [.getRemoteDataset slug]⟩) ∧
    (∀ (n slug : Str) (confirm : Bool),
      remove_remote_dataset .ok (.notFound n) confirm slug
        = ⟨[.text (str "Error: " ++ noDatasetMsg slug)], .exited 1,
           [.getRemoteDataset slug]⟩) ∧
    (∀ n slug : Str, dataset_list_releases .ok (.notFound n) slug
        = ⟨[.text (str "Error: " ++ noDatasetMsg slug)], .exited 1,
           [.getRemoteDataset slug]⟩) ∧
    (∀ (n slug : Str) (scan : List Str) (files excl : Option (List Str)),
      upload_data .ok (.notFound n) scan slug files excl
        = ⟨[.text (str "Error: " ++ noDatasetMsg n)], .exited 1,
           [.getRemoteDataset slug]⟩) ∧
    (∀ (ds : RemoteDataset) (slug : Str) (excl : Option (List Str)),
      upload_data .ok (.found ds) [] slug none excl
        = ⟨[.text (str "Error: " ++ noFilesMsg)], .exited 1,
           [.getRemoteDataset slug]⟩) := by
  refine ⟨fun m => rfl, ?_, fun name => rfl, fun name => rfl, ?_, ?_, ?_,
    fun n slug confirm => rfl, fun n slug => rfl, fun n slug scan files excl => rfl, ?_⟩
  · intro load m k h
    cases load <;> simp [withClient, loadClientError] at h ⊢ <;> simp [h]
  · intro n url lp slug id hparse
    simp [pull_dataset, hparse, withClient, loadClientError, addAction, _error]
  · intro url lp slug id hparse
    simp [pull_dataset, hparse, withClient, loadClientError, addAction, _error]
  · intro ds url lp slug id hparse hrel
    simp [pull_dataset, hparse, hrel, withClient, loadClientError, addAction, _error]
  · intro ds slug excl
    simp [upload_data, withClient, loadClientError, addAction, push, candidateFiles,
      _error]

/-- C8 witness: the handled branches at concrete inputs. -/
theorem claim_C8_witness :
    withClient .missingConfig (⟨[], .ret (), []⟩ : ProcResult Unit)
        = _error (str "Authenticate first") ∧
    pull_dataset .ok .unauthenticated (str "u") (str "p") (str "d")
        = ⟨[.text (str "Error: " ++ pullReauthMsg)], .exited 1,
           [.getRemoteDataset (str "d")]⟩ :=
  ⟨claim_C8_amended_handled_branches_exit_via_error.2.1 .missingConfig
      (str "Authenticate first") ⟨[], .ret (), []⟩ (by decide),
   claim_C8_amended_handled_branches_exit_via_error.2.2.2.2.2.1
      (str "u") (str "p") (str "d") ⟨none, str "d", none⟩ (by decide)⟩

/-- C9: the remote deletion action is performed only when the interactive
confirmation is affirmative; a declined confirmation prints `Cancelled.`
after the announcement and returns normally with no remote removal
performed. -/
theorem claim_C9_remove_requires_confirmation :
    (∀ (load : ClientLoad) (lookup : LookupResult) (confirm : Bool) (slug t s : Str),
      Action.removeRemote t s ∈ (remove_remote_dataset load lookup confirm slug).actions →
      confirm = true) ∧
    (∀ (ds : RemoteDataset) (slug : Str),
      remove_remote_dataset .ok (.found ds) false slug
        = ⟨[.text (aboutDeleteMsg ds), .text (str "Cancelled.")], .ret (),
           [.getRemoteDataset slug]⟩) ∧
    (∀ (ds : RemoteDataset) (slug : Str),
      remove_remote_dataset .ok (.found ds) true slug
        = ⟨[.text (aboutDeleteMsg ds)], .ret (),
           [.getRemoteDataset slug, .removeRemote ds.team ds.slug]⟩) := by
  refine ⟨?_, fun ds slug => rfl, fun ds slug => rfl⟩
  intro load lookup confirm slug t s h
  cases confirm
  · exfalso
    cases load <;> cases lookup <;>
      simp [remove_remote_dataset, withClient, loadClientError, addAction, _error] at h
  · rfl

/-- C9 witness: a declined confirmation at a concrete dataset, and the
affirmative case establishing the hypothesis of the first part. -/
theorem claim_C9_witness :
    remove_remote_dataset .ok (.found ⟨str "t", str "d", []⟩) false (str "d")
        = ⟨[.text (aboutDeleteMsg ⟨str "t", str "d", []⟩), .text (str "Cancelled.")],
           .ret (), [.getRemoteDataset (str "d")]⟩ ∧
    true = true :=
  ⟨claim_C9_remove_requires_confirmation.2.1 ⟨str "t", str "d", []⟩ (str "d"),
   claim_C9_remove_requires_confirmation.1 .ok (.found ⟨str "t", str "d", []⟩) true
     (str "d") (str "t") (str "d") (by decide)⟩

/-- C10: in `dataset_list_releases` the emptiness check precedes the
availability filter: the `No available releases` message is printed exactly
when the release list is literally empty, and a nonempty list of
all-unavailable releases produces an empty table, not that message. -/
theorem claim_C10_emptiness_check_precedes_filter :
    ∀ (ds : RemoteDataset) (slug : Str),
      (ds.releases = [] → dataset_list_releases .ok (.found ds) slug
          = ⟨[.text noReleasesMsg], .ret (), [.getRemoteDataset slug]⟩) ∧
      (ds.releases ≠ [] →
        OutLine.text noReleasesMsg ∉ (dataset_list_releases .ok (.found ds) slug).printed) ∧
      (ds.releases ≠ [] → (∀ r ∈ ds.releases, r.available = false) →
        dataset_list_releases .ok (.found ds) slug
          = ⟨[.releaseTable []], .ret (), [.getRemoteDataset slug]⟩) := by
  intro ds slug
  refine ⟨?_, ?_, ?_⟩
  · intro h
    simp [dataset_list_releases, withClient, loadClientError, addAction, h]
  · intro h
    simp [dataset_list_releases, withClient, loadClientError, addAction, h]
  · intro h hall
    have hfil : ds.releases.filter (fun r => r.available) = [] :=
      List.filter_eq_nil_iff.mpr (fun a ha => by simp [hall a ha])
    simp [dataset_list_releases, withClient, loadClientError, addAction, h, hfil]

/-- C10 witness: an empty ledger prints the message; a ledger holding only a
pending release prints an empty table instead. -/
theorem claim_C10_witness :
    dataset_list_releases .ok (.found ⟨str "t", str "d", []⟩) (str "d")
        = ⟨[.text noReleasesMsg], .ret (), [.getRemoteDataset (str "d")]⟩ ∧
    dataset_list_releases .ok
        (.found ⟨str "t", str "d", [⟨str "v1", 1, 1, 9, false⟩]⟩) (str "d")
        = ⟨[.releaseTable []], .ret (), [.getRemoteDataset (str "d")]⟩ :=
  ⟨(claim_C10_emptiness_check_precedes_filter ⟨str "t", str "d", []⟩ (str "d")).1 rfl,
   (claim_C10_emptiness_check_precedes_filter
      ⟨str "t", str "d", [⟨str "v1", 1, 1, 9, false⟩]⟩ (str "d")).2.2
      (by decide) (by decide)⟩

end Darwin
